import Mathlib

/-!
Verification of the Keyra passwordless-authentication core
(src/app/modules/auth/service.py, src/app/modules/auth/router.py,
src/app/db/models.py) against its natural-language specification.

The Python service is shallowly embedded: persisted rows become Lean
structures, timestamps become natural numbers (seconds), SQL statements
become list transformations, and the per-request database transaction of
the FastAPI routers becomes explicit state passing where an error result
restores the pre-transaction state (rollback).  The Redis counter store
used by the rate limiter is modelled as an association list with
absolute expiry times, together with a `down` flag describing an outage
of the key-value store (a call to the store raises when it is down,
which the embedding renders as an `Except` error).
-/

namespace Keyra

/-- Constant MAGIC_LINK_TTL_MINUTES from service.py. -/
def MAGIC_LINK_TTL_MINUTES : Nat := 10

/-- Constant RATE_LIMIT_WINDOW_SECONDS from service.py. -/
def RATE_LIMIT_WINDOW_SECONDS : Nat := 600

/-- Constant RATE_LIMIT_MAX from service.py. -/
def RATE_LIMIT_MAX : Nat := 5

/-- Settings.access_token_ttl_minutes default from config.py. -/
def access_token_ttl_minutes : Nat := 15

/-- Settings.refresh_token_ttl_days default from config.py. -/
def refresh_token_ttl_days : Nat := 30

/-- normalize_email from service.py: email.strip().lower(), embedded
over the character list (leading and trailing whitespace removed, then
each character lowercased). -/
def normalize_email (email : String) : String :=
  String.mk
    (((email.data.dropWhile Char.isWhitespace).reverse.dropWhile
        Char.isWhitespace).reverse.map Char.toLower)

/-- The SHA-256 hex digest of service.py hash_token.  The digest function
is modelled as an injective tagging function: the claims under scrutiny
depend only on the digest being deterministic and collision-free on the
inputs that actually occur, which SHA-256 provides in practice. -/
def hash_token (token : String) : String := "sha256:" ++ token

/-- Python truthiness of an optional string: None and the empty string
are falsy, every other string is truthy. -/
def truthy (s : Option String) : Bool :=
  match s with
  | none => false
  | some s => decide (s ≠ "")

/-- Payload of the signed access token produced by create_access_token
(jwt.encode is abstracted away; the claims never inspect the signature). -/
structure AccessToken where
  sub : Nat
  iat : Nat
  exp : Nat
deriving DecidableEq, Repr

/-- create_access_token from service.py. -/
def create_access_token (user_id : Nat) (now : Nat) : AccessToken :=
  { sub := user_id, iat := now, exp := now + access_token_ttl_minutes * 60 }

/-- Row of the users table (models.py User). -/
structure User where
  id : Nat
  email : String
  email_verified_at : Option Nat := none
  created_at : Nat := 0
deriving DecidableEq, Repr

/-- Row of the login_challenges table (models.py LoginChallenge). -/
structure LoginChallenge where
  id : Nat
  email : String
  token_hash : String
  expires_at : Nat
  used_at : Option Nat := none
  request_ip : Option String := none
  request_user_agent : Option String := none
  created_at : Nat := 0
deriving DecidableEq, Repr

/-- Row of the sessions table (models.py Session). -/
structure Session where
  id : Nat
  user_id : Nat
  refresh_token_hash : String
  refresh_expires_at : Nat
  rotated_from_session_id : Option Nat := none
  revoked_at : Option Nat := none
  created_at : Nat := 0
  last_seen_at : Option Nat := none
  ip : Option String := none
  user_agent : Option String := none
deriving DecidableEq, Repr

/-- One Redis key: the counter value and its absolute expiry time
(none means the key has no TTL). -/
structure RKey where
  count : Nat
  expiry : Option Nat := none
deriving DecidableEq, Repr

/-- The Redis store: an association list of keys plus an outage flag.
When `down` is true every pipeline execution raises (mirroring the
connection error of the redis client during an outage). -/
structure RedisState where
  keys : List (String × RKey) := []
  down : Bool := false
deriving DecidableEq, Repr

/-- Raw association-list lookup (ignores expiry). -/
def redis_lookup (r : RedisState) (key : String) : Option RKey :=
  (r.keys.find? (fun kv => kv.fst == key)).map (fun kv => kv.snd)

/-- Replace-or-append write into the association list. -/
def assoc_set (l : List (String × RKey)) (key : String) (v : RKey) : List (String × RKey) :=
  match l with
  | [] => [(key, v)]
  | kv :: rest => if kv.fst == key then (key, v) :: rest else kv :: assoc_set rest key v

/-- Write a key into the store. -/
def redis_set (r : RedisState) (key : String) (v : RKey) : RedisState :=
  { r with keys := assoc_set r.keys key v }

/-- Whether a key record is still alive at time `now`. -/
def rkey_live (k : RKey) (now : Nat) : Bool :=
  match k.expiry with
  | none => true
  | some e => decide (now < e)

/-- A key read at time `now`, respecting expiry: an expired key behaves
as absent (Redis deletes keys whose TTL has passed). -/
def redis_live (r : RedisState) (key : String) (now : Nat) : Option RKey :=
  match redis_lookup r key with
  | none => none
  | some k => if rkey_live k now then some k else none

/-- Redis INCR at time `now`: a missing (or expired) key is created with
value 1 and no TTL; otherwise the value is incremented and the TTL kept.
Returns the post-increment value. -/
def redis_incr (r : RedisState) (key : String) (now : Nat) : Nat × RedisState :=
  match redis_live r key now with
  | none => (1, redis_set r key { count := 1, expiry := none })
  | some k => (k.count + 1, redis_set r key { count := k.count + 1, expiry := k.expiry })

/-- Redis EXPIRE at time `now`: sets the TTL of a live key to
`now + seconds` (overwriting any previous TTL); no effect on a missing key. -/
def redis_expire (r : RedisState) (key : String) (seconds : Nat) (now : Nat) : RedisState :=
  match redis_live r key now with
  | none => r
  | some k => redis_set r key { k with expiry := some (now + seconds) }

/-- The email bucket key of check_rate_limit. -/
def rl_key_email (email : String) : String := "rl:magic:email:" ++ email

/-- The ip bucket key of check_rate_limit. -/
def rl_key_ip (ip : String) : String := "rl:magic:ip:" ++ ip

/-- The ip-bucket name: service.py replaces a falsy ip (None or the
empty string) by the literal "unknown". -/
def ip_bucket (ip : Option String) : String :=
  match ip with
  | none => "unknown"
  | some s => if s = "" then "unknown" else s

/-- The redis pipeline of check_rate_limit: INCR and EXPIRE on the email
key, then INCR and EXPIRE on the ip key.  Returns the two post-increment
counts (results[0] and results[2] in service.py) and the updated store. -/
def rl_counts (r : RedisState) (email : String) (ip : Option String) (now : Nat) :
    Nat × Nat × RedisState :=
  let keyE := rl_key_email email
  let keyI := rl_key_ip (ip_bucket ip)
  let p1 := redis_incr r keyE now
  let r2 := redis_expire p1.2 keyE RATE_LIMIT_WINDOW_SECONDS now
  let p3 := redis_incr r2 keyI now
  let r4 := redis_expire p3.2 keyI RATE_LIMIT_WINDOW_SECONDS now
  (p1.1, p3.1, r4)

/-- check_rate_limit from service.py.  When the key-value store is down
the pipeline execution raises, rendered as an error; the code contains no
handler for it.  Otherwise returns True (admit) unless either
post-increment count exceeds RATE_LIMIT_MAX. -/
def check_rate_limit (r : RedisState) (email : String) (ip : Option String) (now : Nat) :
    Except Unit (Bool × RedisState) :=
  if r.down then .error () else
  let res := rl_counts r email ip now
  if res.1 > RATE_LIMIT_MAX ∨ res.2.1 > RATE_LIMIT_MAX then .ok (false, res.2.2)
  else .ok (true, res.2.2)

/-- The persisted database state plus the ephemeral counter store. -/
structure Sys where
  users : List User := []
  challenges : List LoginChallenge := []
  sessions : List Session := []
  redis : RedisState := {}
deriving DecidableEq, Repr

/-- Tagged failures raised by the service layer.  The first five mirror
the ValueError tags of service.py; multiple_results models
scalar_one_or_none raising on more than one row, and integrity_error
models a unique/primary-key constraint violation at flush or commit
(neither is a ValueError, so the routers surface them as 500). -/
inductive AuthErr where
  | invalid_or_expired_token
  | invalid_refresh_token
  | refresh_token_reuse
  | refresh_token_expired
  | session_hijacking
  | multiple_results
  | integrity_error
deriving DecidableEq, Repr

/-- HTTP outcome of an endpoint: a 200 body or a status plus detail tag. -/
inductive HttpOut where
  | ok (status_field : String)
  | err (status : Nat) (detail : String)
deriving DecidableEq, Repr

/-- SQLAlchemy scalar_one_or_none over a filtered select: no row gives
none, one row gives it, several rows raise. -/
def find_unique {α : Type} (p : α → Bool) (xs : List α) : Except Unit (Option α) :=
  match xs.filter p with
  | [] => .ok none
  | [x] => .ok (some x)
  | _ :: _ :: _ => .error ()

/-- POST /auth/magic/request (router.py request_magic_link together with
service.py create_login_challenge).  The freshly generated token and the
server-assigned challenge id are inputs of the embedding.  A rate-limit
error propagates (500); a denial returns the constant success body with
no challenge inserted; otherwise the challenge is inserted unless its
token_hash or id violates a unique constraint at commit. -/
def request_magic_link (σ : Sys) (email_raw : String) (client_ip request_ua : Option String)
    (now : Nat) (token : String) (cid : Nat) : HttpOut × Sys :=
  let email := normalize_email email_raw
  match check_rate_limit σ.redis email client_ip now with
  | .error _ => (.err 500 "infra", σ)
  | .ok (false, r) => (.ok "ok", { σ with redis := r })
  | .ok (true, r) =>
    let h := hash_token token
    if σ.challenges.any (fun c => c.token_hash == h || c.id == cid) then
      (.err 500 "integrity_error", { σ with redis := r })
    else
      let c : LoginChallenge :=
        { id := cid, email := email, token_hash := h,
          expires_at := now + MAGIC_LINK_TTL_MINUTES * 60, used_at := none,
          request_ip := client_ip, request_user_agent := request_ua, created_at := now }
      (.ok "ok", { σ with redis := r, challenges := σ.challenges ++ [c] })

/-- verify_magic_token_and_create_session from service.py.  The state in
the returned pair is the ORM state at return or raise time; the router
decides whether it is committed or rolled back.  The fresh user id,
session id and refresh token are inputs of the embedding. -/
def verify_magic_token_and_create_session (σ : Sys) (token : String)
    (request_ip request_ua : Option String) (now : Nat)
    (new_user_id new_session_id : Nat) (refresh_token : String) :
    Except AuthErr (AccessToken × String) × Sys :=
  let h := hash_token token
  match find_unique
      (fun c => c.token_hash == h && c.used_at == none && decide (now < c.expires_at))
      σ.challenges with
  | .error _ => (.error .multiple_results, σ)
  | .ok none => (.error .invalid_or_expired_token, σ)
  | .ok (some c) =>
    let challenges' :=
      σ.challenges.map (fun x => if x.id = c.id then { x with used_at := some now } else x)
    let σ1 : Sys := { σ with challenges := challenges' }
    match find_unique (fun u => u.email == c.email) σ1.users with
    | .error _ => (.error .multiple_results, σ1)
    | .ok ures =>
      let uid := match ures with
        | some u => u.id
        | none => new_user_id
      let σ2 : Sys := match ures with
        | some _ => σ1
        | none => { σ1 with users := σ1.users ++
            [{ id := new_user_id, email := c.email, email_verified_at := none, created_at := now }] }
      let rh := hash_token refresh_token
      if σ2.sessions.any (fun s => s.refresh_token_hash == rh || s.id == new_session_id) then
        (.error .integrity_error, σ2)
      else
        let s : Session :=
          { id := new_session_id, user_id := uid, refresh_token_hash := rh,
            refresh_expires_at := now + refresh_token_ttl_days * 86400,
            rotated_from_session_id := none, revoked_at := none, created_at := now,
            last_seen_at := some now, ip := request_ip, user_agent := request_ua }
        (.ok (create_access_token uid now, refresh_token),
         { σ2 with sessions := σ2.sessions ++ [s] })

/-- POST /auth/magic/verify (router.py verify_magic_link): the service
call runs inside one transaction; any error rolls it back, and only a
ValueError is mapped to 400 invalid_or_expired_token. -/
def verify_magic_link (σ : Sys) (token : String) (request_ip request_ua : Option String)
    (now : Nat) (new_user_id new_session_id : Nat) (refresh_token : String) : HttpOut × Sys :=
  match verify_magic_token_and_create_session σ token request_ip request_ua now
      new_user_id new_session_id refresh_token with
  | (.ok _, σ') => (.ok "ok", σ')
  | (.error .invalid_or_expired_token, _) => (.err 400 "invalid_or_expired_token", σ)
  | (.error _, _) => (.err 500 "internal", σ)

/-- The while-loop body of service.py _collect_session_chain_ids,
embedded with an explicit fuel parameter standing for the number of
iterations still allowed; the Python loop has no such bound, and its
termination is exactly the statement that enough fuel always exists
(claim about the traversal).  Children of the id at the cursor are
appended unless already visited. -/
def collect_session_chain_ids_loop (sessions : List Session) :
    Nat → List Nat → Nat → Option (List Nat)
  | 0, ids, idx => if idx < ids.length then none else some ids
  | fuel + 1, ids, idx =>
    if h : idx < ids.length then
      let current := ids.get ⟨idx, h⟩
      let child_ids :=
        (sessions.filter (fun s => s.rotated_from_session_id == some current)).map
          (fun s => s.id)
      let ids' := child_ids.foldl (fun acc c => if c ∈ acc then acc else acc ++ [c]) ids
      collect_session_chain_ids_loop sessions fuel ids' (idx + 1)
    else some ids

/-- service.py _collect_session_chain_ids, run with enough fuel for any
store of this size (proved sufficient below). -/
def collect_session_chain_ids (sessions : List Session) (root : Nat) : Option (List Nat) :=
  collect_session_chain_ids_loop sessions (sessions.length + 1) [root] 0

/-- service.py revoke_session_chain: one UPDATE setting revoked_at = now
on every collected id.  The none branch of the traversal is unreachable
(the termination theorem below); it is rendered as a no-op. -/
def revoke_session_chain (σ : Sys) (root : Nat) (now : Nat) : Sys :=
  match collect_session_chain_ids σ.sessions root with
  | none => σ
  | some ids =>
    { σ with sessions :=
        σ.sessions.map (fun s => if s.id ∈ ids then { s with revoked_at := some now } else s) }

/-- service.py rotate_refresh_token.  The returned state is the ORM
state at return or raise time: on the reuse, expiry and hijack branches
the chain revocation has been executed before the ValueError is raised.
The fresh session id and refresh token are inputs of the embedding. -/
def rotate_refresh_token (σ : Sys) (refresh_token : String)
    (request_ip request_ua : Option String) (now : Nat)
    (new_session_id : Nat) (new_refresh_token : String) :
    Except AuthErr (AccessToken × String) × Sys :=
  let h := hash_token refresh_token
  match find_unique (fun s => s.refresh_token_hash == h) σ.sessions with
  | .error _ => (.error .multiple_results, σ)
  | .ok none => (.error .invalid_refresh_token, σ)
  | .ok (some cur) =>
    if cur.revoked_at.isSome then
      (.error .refresh_token_reuse, revoke_session_chain σ cur.id now)
    else if cur.refresh_expires_at ≤ now then
      (.error .refresh_token_expired, revoke_session_chain σ cur.id now)
    else if truthy cur.ip && truthy request_ip && decide (cur.ip ≠ request_ip) then
      (.error .session_hijacking, revoke_session_chain σ cur.id now)
    else if truthy cur.user_agent && truthy request_ua
        && decide (cur.user_agent ≠ request_ua) then
      (.error .session_hijacking, revoke_session_chain σ cur.id now)
    else
      let nh := hash_token new_refresh_token
      let new_s : Session :=
        { id := new_session_id, user_id := cur.user_id, refresh_token_hash := nh,
          refresh_expires_at := now + refresh_token_ttl_days * 86400,
          rotated_from_session_id := some cur.id, revoked_at := none, created_at := now,
          last_seen_at := some now, ip := request_ip, user_agent := request_ua }
      let sessions' :=
        σ.sessions.map (fun s => if s.id = cur.id then { s with revoked_at := some now } else s)
          ++ [new_s]
      let σ' : Sys := { σ with sessions := sessions' }
      if σ.sessions.any (fun s => s.refresh_token_hash == nh || s.id == new_session_id) then
        (.error .integrity_error, σ')
      else
        (.ok (create_access_token cur.user_id now, new_refresh_token), σ')

/-- POST /auth/refresh (router.py refresh_session): the rotation runs
inside one transaction (session.begin()); when the service raises, the
transaction context manager rolls the state back before the error is
mapped to an HTTP response, so the returned state is the original one on
every error branch.  ValueError tags reuse, hijacking and expired map to
401 with the same tag, every other ValueError maps to 401
invalid_refresh_token, and non-ValueError exceptions surface as 500. -/
def refresh_session (σ : Sys) (refresh_token : String)
    (request_ip request_ua : Option String) (now : Nat)
    (new_session_id : Nat) (new_refresh_token : String) : HttpOut × Sys :=
  match rotate_refresh_token σ refresh_token request_ip request_ua now
      new_session_id new_refresh_token with
  | (.ok _, σ') => (.ok "ok", σ')
  | (.error .refresh_token_reuse, _) => (.err 401 "refresh_token_reuse", σ)
  | (.error .session_hijacking, _) => (.err 401 "session_hijacking", σ)
  | (.error .refresh_token_expired, _) => (.err 401 "refresh_token_expired", σ)
  | (.error .invalid_refresh_token, _) => (.err 401 "invalid_refresh_token", σ)
  | (.error _, _) => (.err 500 "internal", σ)

/-- service.py revoke_session_by_refresh_token: look the session up by
digest; absent gives False, otherwise set revoked_at = now (with no
check of the previous value) and give True. -/
def revoke_session_by_refresh_token (σ : Sys) (refresh_token : String) (now : Nat) :
    Except AuthErr Bool × Sys :=
  let h := hash_token refresh_token
  match find_unique (fun s => s.refresh_token_hash == h) σ.sessions with
  | .error _ => (.error .multiple_results, σ)
  | .ok none => (.ok false, σ)
  | .ok (some cur) =>
    (.ok true,
     { σ with sessions :=
         σ.sessions.map (fun s => if s.id = cur.id then { s with revoked_at := some now } else s) })

/-- POST /auth/logout (router.py logout). -/
def logout (σ : Sys) (refresh_token : String) (now : Nat) : HttpOut × Sys :=
  match revoke_session_by_refresh_token σ refresh_token now with
  | (.ok true, σ') => (.ok "ok", σ')
  | (.ok false, _) => (.err 401 "invalid_refresh_token", σ)
  | (.error _, _) => (.err 500 "internal", σ)

/-- service.py revoke_all_sessions_for_user: one UPDATE setting
revoked_at = now on every session of the user, with no filter on the
previous value of revoked_at. -/
def revoke_all_sessions_for_user (σ : Sys) (user_id : Nat) (now : Nat) : Sys :=
  { σ with sessions :=
      σ.sessions.map (fun s => if s.user_id = user_id then { s with revoked_at := some now } else s) }

/-- POST /auth/logout-all (router.py logout_all), with the bearer
subject already decoded. -/
def logout_all (σ : Sys) (user_id : Nat) (now : Nat) : HttpOut × Sys :=
  (.ok "ok", revoke_all_sessions_for_user σ user_id now)

/-- One client-visible operation of the auth surface, carrying its
request data, its clock reading and the fresh random material and
server-assigned ids its execution consumes. -/
inductive Op where
  | req_magic (email_raw : String) (ip ua : Option String) (now : Nat) (token : String) (cid : Nat)
  | verify_magic (token : String) (ip ua : Option String) (now : Nat)
      (uid sid : Nat) (refresh_token : String)
  | refresh (refresh_token : String) (ip ua : Option String) (now : Nat)
      (sid : Nat) (new_refresh_token : String)
  | logout_op (refresh_token : String) (now : Nat)
  | logout_all_op (uid : Nat) (now : Nat)
deriving DecidableEq, Repr

/-- The state reached after one endpoint call (its committed effect). -/
def apply_op (σ : Sys) (o : Op) : Sys :=
  match o with
  | .req_magic e ip ua now tok cid => (request_magic_link σ e ip ua now tok cid).2
  | .verify_magic tok ip ua now uid sid rt => (verify_magic_link σ tok ip ua now uid sid rt).2
  | .refresh rt ip ua now sid nrt => (refresh_session σ rt ip ua now sid nrt).2
  | .logout_op rt now => (logout σ rt now).2
  | .logout_all_op uid now => (logout_all σ uid now).2

/-- The HTTP response of one endpoint call. -/
def op_response (σ : Sys) (o : Op) : HttpOut :=
  match o with
  | .req_magic e ip ua now tok cid => (request_magic_link σ e ip ua now tok cid).1
  | .verify_magic tok ip ua now uid sid rt => (verify_magic_link σ tok ip ua now uid sid rt).1
  | .refresh rt ip ua now sid nrt => (refresh_session σ rt ip ua now sid nrt).1
  | .logout_op rt now => (logout σ rt now).1
  | .logout_all_op uid now => (logout_all σ uid now).1

/-- Run a trace of operations. -/
def run (σ : Sys) (ops : List Op) : Sys := ops.foldl apply_op σ

/-- A digest is burned at time T when some challenge row carries it (so
the unique constraint on token_hash blocks any new row with it) and
every row carrying it is used or expired by T.  After a successful
verification at time T the presented token's digest is burned, and a
burned digest can never verify again at or after T. -/
def digest_burned (σ : Sys) (h : String) (T : Nat) : Prop :=
  (∃ c ∈ σ.challenges, c.token_hash = h) ∧
  ∀ c ∈ σ.challenges, c.token_hash = h → c.used_at ≠ none ∨ c.expires_at ≤ T

instance (σ : Sys) (h : String) (T : Nat) : Decidable (digest_burned σ h T) := by
  unfold digest_burned; infer_instance

/-- Default row used with List.getD when indexing session stores. -/
def dummy_session : Session :=
  { id := 0, user_id := 0, refresh_token_hash := "", refresh_expires_at := 0 }

/-- Store for the reuse scenario: session 1 is already revoked (its
token was rotated away at time 5) and session 2 is its live child. -/
def c1_parent : Session :=
  { id := 1, user_id := 7, refresh_token_hash := hash_token "rtA",
    refresh_expires_at := 1000, rotated_from_session_id := none, revoked_at := some 5 }

/-- The live descendant of c1_parent. -/
def c1_child : Session :=
  { id := 2, user_id := 7, refresh_token_hash := hash_token "rtB",
    refresh_expires_at := 2000, rotated_from_session_id := some 1, revoked_at := none }

/-- System state before the reuse attack. -/
def c1_sys : Sys := { sessions := [c1_parent, c1_child] }

/-- Store with a single session revoked at time 5, for the logout-all
monotonicity scenario. -/
def c2_sys : Sys :=
  { sessions := [{ id := 1, user_id := 7, refresh_token_hash := hash_token "rt2",
                   refresh_expires_at := 100, revoked_at := some 5 }] }

/-- Store whose only challenge carries the digest of token tokZ and was
already used at time 2. -/
def c3_sys : Sys :=
  { challenges := [{ id := 1, email := "a@b.c", token_hash := hash_token "tokZ",
                     expires_at := 3, used_at := some 2 }] }

/-- Store with one live session for a successful rotation. -/
def c4_sys : Sys :=
  { sessions := [{ id := 1, user_id := 7, refresh_token_hash := hash_token "rt",
                   refresh_expires_at := 100, revoked_at := none }] }

/-- Store whose session has the empty string as recorded ip, which is
non-null at the schema level but falsy for the hijack comparison. -/
def c5_sys : Sys :=
  { sessions := [{ id := 1, user_id := 7, refresh_token_hash := hash_token "rt5",
                   refresh_expires_at := 1000, revoked_at := none,
                   ip := some "", user_agent := none }] }

/-- Store whose session has a real recorded ip, for the positive hijack
detection. -/
def c5w_sys : Sys :=
  { sessions := [{ id := 1, user_id := 7, refresh_token_hash := hash_token "rtW",
                   refresh_expires_at := 1000, revoked_at := none,
                   ip := some "1.1.1.1", user_agent := none }] }

/-- State during a key-value store outage. -/
def c6_sys : Sys := { redis := { keys := [], down := true } }

/-- Redis state after one admission call at time 0 for a@b.c. -/
def c7_state1 : RedisState :=
  match check_rate_limit {} "a@b.c" none 0 with
  | .ok p => p.2
  | .error _ => {}

/-- Redis state after a second admission call at time 100. -/
def c7_state2 : RedisState :=
  match check_rate_limit c7_state1 "a@b.c" none 100 with
  | .ok p => p.2
  | .error _ => {}

/-- Six magic-link requests for the same email and ip at times 0..5,
all inside one rate-limit window. -/
def c8_ops : List Op :=
  [ .req_magic "a@b.c" (some "1.1.1.1") none 0 "t0" 10,
    .req_magic "a@b.c" (some "1.1.1.1") none 1 "t1" 11,
    .req_magic "a@b.c" (some "1.1.1.1") none 2 "t2" 12,
    .req_magic "a@b.c" (some "1.1.1.1") none 3 "t3" 13,
    .req_magic "a@b.c" (some "1.1.1.1") none 4 "t4" 14,
    .req_magic "a@b.c" (some "1.1.1.1") none 5 "t5" 15 ]

/-- Store with one session, for the chain-revocation witness. -/
def c10_sys : Sys :=
  { sessions := [{ id := 1, user_id := 7, refresh_token_hash := "h1",
                   refresh_expires_at := 10, revoked_at := none }] }

theorem find_unique_ok_some {α : Type} (p : α → Bool) (xs : List α) (x : α)
    (h : find_unique p xs = .ok (some x)) :
    x ∈ xs ∧ p x = true ∧ ∀ y ∈ xs, p y = true → y = x := by
  unfold find_unique at h
  cases hf : xs.filter p with
  | nil => rw [hf] at h; exact absurd h (by simp)
  | cons a t =>
    cases t with
    | nil =>
      rw [hf] at h
      simp only [Except.ok.injEq, Option.some.injEq] at h
      have hmem : x ∈ xs.filter p := by rw [hf]; exact List.mem_singleton.mpr h.symm
      refine ⟨(List.mem_filter.mp hmem).1, (List.mem_filter.mp hmem).2, ?_⟩
      intro y hy hp
      have hy2 : y ∈ xs.filter p := List.mem_filter.mpr ⟨hy, hp⟩
      rw [hf] at hy2
      exact (List.mem_singleton.mp hy2).trans h
    | cons b t2 => rw [hf] at h; exact absurd h (by simp)

theorem find_unique_ok_none {α : Type} (p : α → Bool) (xs : List α)
    (h : find_unique p xs = .ok none) : ∀ y ∈ xs, p y = false := by
  unfold find_unique at h
  cases hf : xs.filter p with
  | nil =>
    intro y hy
    by_contra hp
    have : y ∈ xs.filter p := List.mem_filter.mpr ⟨hy, by simpa using hp⟩
    rw [hf] at this
    exact absurd this (List.not_mem_nil y)
  | cons a t =>
    rw [hf] at h
    cases t <;> exact absurd h (by simp)

theorem find_unique_none_of {α : Type} (p : α → Bool) (xs : List α)
    (h : ∀ y ∈ xs, p y = false) : find_unique p xs = .ok none := by
  have hf : xs.filter p = [] := by
    rw [List.filter_eq_nil_iff]
    intro a ha
    simp [h a ha]
  unfold find_unique
  rw [hf]

theorem getD_map_of_lt {α β : Type} (f : α → β) (l : List α) (i : Nat) (d : β) (d₂ : α)
    (h : i < l.length) : (l.map f).getD i d = f (l.getD i d₂) := by
  have h2 : i < (l.map f).length := by simpa using h
  rw [List.getD_eq_getElem _ _ h2, List.getD_eq_getElem _ _ h, List.getElem_map]

theorem getD_append_of_lt {α : Type} (l l₂ : List α) (i : Nat) (d : α)
    (h : i < l.length) : (l ++ l₂).getD i d = l.getD i d :=
  List.getD_append l l₂ d i h

theorem string_append_data (a b : String) : (a ++ b).data = a.data ++ b.data := by
  cases a; cases b; rfl

theorem rl_keys_ne (e i : String) : rl_key_email e ≠ rl_key_ip i := by
  intro h
  have hd := congrArg String.data h
  rw [rl_key_email, rl_key_ip, string_append_data, string_append_data] at hd
  have h9 := congrArg (fun l => l[9]?) hd
  simp only at h9
  rw [List.getElem?_append_left (by decide), List.getElem?_append_left (by decide)] at h9
  exact absurd h9 (by decide)

theorem assoc_find_set_self (l : List (String × RKey)) (k : String) (v : RKey) :
    (assoc_set l k v).find? (fun kv => kv.fst == k) = some (k, v) := by
  induction l with
  | nil => simp [assoc_set, List.find?]
  | cons kv rest ih =>
    unfold assoc_set
    by_cases h : kv.fst = k
    · simp [h, List.find?]
    · have hb : (kv.fst == k) = false := by simpa using h
      rw [hb]
      simp only [Bool.false_eq_true, if_false]
      rw [List.find?_cons_of_neg _ (by simpa using h)]
      exact ih

theorem assoc_find_set_other (l : List (String × RKey)) (k : String) (v : RKey) (k' : String)
    (h : k' ≠ k) :
    (assoc_set l k v).find? (fun kv => kv.fst == k') = l.find? (fun kv => kv.fst == k') := by
  induction l with
  | nil =>
    simp [assoc_set, List.find?, show (k == k') = false by simpa using (Ne.symm h)]
  | cons kv rest ih =>
    unfold assoc_set
    by_cases hk : kv.fst = k
    · have hb : (kv.fst == k) = true := by simpa using hk
      rw [hb]
      simp only [if_true]
      rw [List.find?_cons_of_neg _ (by simpa using (Ne.symm h)),
          List.find?_cons_of_neg _ (by rw [hk]; simpa using (Ne.symm h))]
    · have hb : (kv.fst == k) = false := by simpa using hk
      rw [hb]
      simp only [Bool.false_eq_true, if_false]
      by_cases hk' : kv.fst = k'
      · rw [List.find?_cons_of_pos _ (by simpa using hk'),
            List.find?_cons_of_pos _ (by simpa using hk')]
      · rw [List.find?_cons_of_neg _ (by simpa using hk'),
            List.find?_cons_of_neg _ (by simpa using hk')]
        exact ih

theorem redis_lookup_set_self (r : RedisState) (k : String) (v : RKey) :
    redis_lookup (redis_set r k v) k = some v := by
  unfold redis_lookup redis_set
  simp [assoc_find_set_self]

theorem redis_lookup_set_other (r : RedisState) (k : String) (v : RKey) (k' : String)
    (h : k' ≠ k) : redis_lookup (redis_set r k v) k' = redis_lookup r k' := by
  unfold redis_lookup redis_set
  simp [assoc_find_set_other _ _ _ _ h]

theorem redis_lookup_incr_other (r : RedisState) (k : String) (now : Nat) (k' : String)
    (h : k' ≠ k) : redis_lookup (redis_incr r k now).2 k' = redis_lookup r k' := by
  unfold redis_incr
  cases redis_live r k now <;> simp [redis_lookup_set_other _ _ _ _ h]

theorem redis_lookup_expire_other (r : RedisState) (k : String) (w now : Nat) (k' : String)
    (h : k' ≠ k) : redis_lookup (redis_expire r k w now) k' = redis_lookup r k' := by
  unfold redis_expire
  cases redis_live r k now <;> simp [redis_lookup_set_other _ _ _ _ h]

theorem redis_live_eq_some (r : RedisState) (k : String) (now : Nat) (k0 : RKey) :
    redis_live r k now = some k0 ↔
      redis_lookup r k = some k0 ∧ rkey_live k0 now = true := by
  unfold redis_live
  cases hlk : redis_lookup r k with
  | none => simp
  | some k1 =>
    constructor
    · intro h
      dsimp only at h
      by_cases hlive : rkey_live k1 now = true
      · rw [if_pos hlive] at h
        have hk : k1 = k0 := (Option.some.injEq _ _).mp h
        rw [← hk]
        exact ⟨rfl, hlive⟩
      · rw [if_neg hlive] at h
        exact absurd h (by simp)
    · intro h
      obtain ⟨h1, h2⟩ := h
      have hk : k1 = k0 := (Option.some.injEq _ _).mp h1
      dsimp only
      rw [hk, if_pos h2]

theorem redis_live_set_self (r : RedisState) (k : String) (v : RKey) (now : Nat) :
    redis_live (redis_set r k v) k now = if rkey_live v now then some v else none := by
  unfold redis_live
  rw [redis_lookup_set_self]

theorem incr_expire_self (r : RedisState) (k : String) (now w : Nat) :
    redis_lookup (redis_expire (redis_incr r k now).2 k w now) k =
      some { count := (redis_incr r k now).1, expiry := some (now + w) } := by
  unfold redis_incr
  cases hl : redis_live r k now with
  | none =>
    simp only
    unfold redis_expire
    rw [redis_live_set_self]
    have : rkey_live { count := 1, expiry := none } now = true := rfl
    rw [this, if_pos rfl]
    rw [redis_lookup_set_self]
  | some k0 =>
    simp only
    unfold redis_expire
    rw [redis_live_set_self]
    have hlive0 : rkey_live k0 now = true := ((redis_live_eq_some r k now k0).mp hl).2
    have hlive : rkey_live { count := k0.count + 1, expiry := k0.expiry } now = true := by
      unfold rkey_live at hlive0 ⊢
      exact hlive0
    rw [hlive, if_pos rfl]
    rw [redis_lookup_set_self]

theorem rotate_ok_state (σ : Sys) (rt : String) (ip ua : Option String) (now sid : Nat)
    (nrt : String) (r : AccessToken × String) (σ' : Sys)
    (h : rotate_refresh_token σ rt ip ua now sid nrt = (.ok r, σ')) :
    ∃ cur, cur ∈ σ.sessions ∧ cur.refresh_token_hash = hash_token rt ∧
      cur.revoked_at = none ∧ now < cur.refresh_expires_at ∧
      (∀ y ∈ σ.sessions, (y.refresh_token_hash == hash_token rt) = true → y = cur) ∧
      (σ.sessions.any (fun s => s.refresh_token_hash == hash_token nrt || s.id == sid)) = false ∧
      r = (create_access_token cur.user_id now, nrt) ∧
      σ' = { σ with sessions :=
        σ.sessions.map (fun s => if s.id = cur.id then { s with revoked_at := some now } else s)
          ++ [{ id := sid, user_id := cur.user_id, refresh_token_hash := hash_token nrt,
                refresh_expires_at := now + refresh_token_ttl_days * 86400,
                rotated_from_session_id := some cur.id, revoked_at := none, created_at := now,
                last_seen_at := some now, ip := ip, user_agent := ua }] } := by
  unfold rotate_refresh_token at h
  dsimp only at h
  cases hf : find_unique (fun s => s.refresh_token_hash == hash_token rt) σ.sessions with
  | error e => rw [hf] at h; exact absurd h (by simp)
  | ok o =>
    cases o with
    | none => rw [hf] at h; exact absurd h (by simp)
    | some cur =>
      rw [hf] at h
      dsimp only at h
      obtain ⟨hmem, hpred, huniq⟩ := find_unique_ok_some _ _ _ hf
      refine ⟨cur, hmem, by simpa using hpred, ?_⟩
      by_cases h1 : cur.revoked_at.isSome = true
      · rw [if_pos h1] at h; exact absurd h (by simp)
      · rw [if_neg h1] at h
        have hrev : cur.revoked_at = none := by
          cases hr : cur.revoked_at with
          | none => rfl
          | some v => rw [hr] at h1; exact absurd rfl h1
        by_cases h2 : cur.refresh_expires_at ≤ now
        · rw [if_pos h2] at h; exact absurd h (by simp)
        · rw [if_neg h2] at h
          by_cases h3 : (truthy cur.ip && truthy ip && decide (cur.ip ≠ ip)) = true
          · rw [if_pos h3] at h; exact absurd h (by simp)
          · rw [if_neg h3] at h
            by_cases h4 : (truthy cur.user_agent && truthy ua
                && decide (cur.user_agent ≠ ua)) = true
            · rw [if_pos h4] at h; exact absurd h (by simp)
            · rw [if_neg h4] at h
              by_cases h5 : (σ.sessions.any
                  (fun s => s.refresh_token_hash == hash_token nrt || s.id == sid)) = true
              · rw [if_pos h5] at h; exact absurd h (by simp)
              · rw [if_neg h5] at h
                have hp := Prod.mk.injEq _ _ _ _ ▸ h
                simp only [Prod.mk.injEq, Except.ok.injEq] at hp
                refine ⟨hrev, by omega, fun y hy hb => huniq y hy hb, by simpa using h5,
                  hp.1.symm, hp.2.symm⟩

theorem verify_ok_state (σ : Sys) (tok : String) (ip ua : Option String) (now uid sid : Nat)
    (rt : String) (r : AccessToken × String) (σ' : Sys)
    (h : verify_magic_token_and_create_session σ tok ip ua now uid sid rt = (.ok r, σ')) :
    ∃ c, c ∈ σ.challenges ∧ c.token_hash = hash_token tok ∧ c.used_at = none ∧
      now < c.expires_at ∧
      (∀ y ∈ σ.challenges, (y.token_hash == hash_token tok && y.used_at == none
          && decide (now < y.expires_at)) = true → y = c) ∧
      σ'.challenges = σ.challenges.map
        (fun x => if x.id = c.id then { x with used_at := some now } else x) ∧
      ∃ tail, σ'.sessions = σ.sessions ++ tail := by
  unfold verify_magic_token_and_create_session at h
  dsimp only at h
  cases hf : find_unique
      (fun c => c.token_hash == hash_token tok && c.used_at == none
        && decide (now < c.expires_at)) σ.challenges with
  | error e => rw [hf] at h; exact absurd h (by simp)
  | ok o =>
    cases o with
    | none => rw [hf] at h; exact absurd h (by simp)
    | some c =>
      rw [hf] at h
      dsimp only at h
      obtain ⟨hcm, hcp, huniq⟩ := find_unique_ok_some _ _ _ hf
      have hcp' := hcp
      simp only [Bool.and_eq_true, beq_iff_eq, decide_eq_true_eq] at hcp'
      refine ⟨c, hcm, hcp'.1.1, by simpa using hcp'.1.2, hcp'.2, huniq, ?_⟩
      cases hu : find_unique (fun u => u.email == c.email) σ.users with
      | error e => rw [hu] at h; exact absurd h (by simp)
      | ok ures =>
        rw [hu] at h
        dsimp only at h
        cases ures with
        | some u =>
          by_cases h5 : (σ.sessions.any
              (fun s => s.refresh_token_hash == hash_token rt || s.id == sid)) = true
          · rw [if_pos h5] at h; exact absurd h (by simp)
          · rw [if_neg h5] at h
            simp only [Prod.mk.injEq, Except.ok.injEq] at h
            rw [← h.2]
            exact ⟨rfl, _, rfl⟩
        | none =>
          by_cases h5 : (σ.sessions.any
              (fun s => s.refresh_token_hash == hash_token rt || s.id == sid)) = true
          · rw [if_pos h5] at h; exact absurd h (by simp)
          · rw [if_neg h5] at h
            simp only [Prod.mk.injEq, Except.ok.injEq] at h
            rw [← h.2]
            exact ⟨rfl, _, rfl⟩

theorem request_magic_link_fixed (σ : Sys) (e : String) (ip ua : Option String)
    (now : Nat) (tok : String) (cid : Nat) :
    (request_magic_link σ e ip ua now tok cid).2.sessions = σ.sessions ∧
    (request_magic_link σ e ip ua now tok cid).2.users = σ.users := by
  unfold request_magic_link
  dsimp only
  split
  · exact ⟨rfl, rfl⟩
  · exact ⟨rfl, rfl⟩
  · split
    · exact ⟨rfl, rfl⟩
    · exact ⟨rfl, rfl⟩

theorem request_magic_link_challenges (σ : Sys) (e : String) (ip ua : Option String)
    (now : Nat) (tok : String) (cid : Nat) :
    (request_magic_link σ e ip ua now tok cid).2.challenges = σ.challenges ∨
    ((request_magic_link σ e ip ua now tok cid).2.challenges = σ.challenges ++
        [{ id := cid, email := normalize_email e, token_hash := hash_token tok,
           expires_at := now + MAGIC_LINK_TTL_MINUTES * 60, used_at := none,
           request_ip := ip, request_user_agent := ua, created_at := now }] ∧
      (σ.challenges.any (fun c => c.token_hash == hash_token tok || c.id == cid)) = false) := by
  unfold request_magic_link
  dsimp only
  split
  · exact Or.inl rfl
  · exact Or.inl rfl
  · split
    · exact Or.inl rfl
    · rename_i hany
      exact Or.inr ⟨rfl, by simpa using hany⟩

theorem verify_magic_link_state (σ : Sys) (tok : String) (ip ua : Option String)
    (now uid sid : Nat) (rt : String) :
    (verify_magic_link σ tok ip ua now uid sid rt).2 = σ ∨
    ∃ r, verify_magic_token_and_create_session σ tok ip ua now uid sid rt =
      (.ok r, (verify_magic_link σ tok ip ua now uid sid rt).2) := by
  unfold verify_magic_link
  split
  · rename_i r σ' heq
    exact Or.inr ⟨r, by rw [heq]⟩
  · exact Or.inl rfl
  · exact Or.inl rfl

theorem refresh_session_state (σ : Sys) (rt : String) (ip ua : Option String)
    (now sid : Nat) (nrt : String) :
    (refresh_session σ rt ip ua now sid nrt).2 = σ ∨
    ∃ r, rotate_refresh_token σ rt ip ua now sid nrt =
      (.ok r, (refresh_session σ rt ip ua now sid nrt).2) := by
  unfold refresh_session
  split
  · rename_i r σ' heq
    exact Or.inr ⟨r, by rw [heq]⟩
  · exact Or.inl rfl
  · exact Or.inl rfl
  · exact Or.inl rfl
  · exact Or.inl rfl
  · exact Or.inl rfl

theorem revoke_by_token_state (σ : Sys) (rt : String) (now : Nat) :
    (revoke_session_by_refresh_token σ rt now).2 = σ ∨
    ∃ cid0, (revoke_session_by_refresh_token σ rt now).2 = { σ with sessions := σ.sessions.map (fun s => if s.id = cid0 then { s with revoked_at := some now } else s) } := by
  unfold revoke_session_by_refresh_token
  dsimp only
  split
  · exact Or.inl rfl
  · exact Or.inl rfl
  · rename_i cur heq
    exact Or.inr ⟨cur.id, rfl⟩

theorem logout_state (σ : Sys) (rt : String) (now : Nat) :
    (logout σ rt now).2 = σ ∨
    ∃ cid0, (logout σ rt now).2 = { σ with sessions := σ.sessions.map (fun s => if s.id = cid0 then { s with revoked_at := some now } else s) } := by
  unfold logout
  split
  · rename_i σ' heq
    rcases revoke_by_token_state σ rt now with hs | ⟨cid0, hs⟩
    · rw [heq] at hs
      exact Or.inl hs
    · rw [heq] at hs
      exact Or.inr ⟨cid0, hs⟩
  · exact Or.inl rfl
  · exact Or.inl rfl

theorem apply_op_sessions_shape (σ : Sys) (o : Op) :
    ∃ (g : Session → Session) (tail : List Session),
      (apply_op σ o).sessions = σ.sessions.map g ++ tail ∧
      ∀ s, g s = s ∨ ∃ t, g s = { s with revoked_at := some t } := by
  cases o with
  | req_magic e ip ua now tok cid =>
    refine ⟨fun s => s, [], ?_, fun s => Or.inl rfl⟩
    rw [List.append_nil, List.map_id']
    exact (request_magic_link_fixed σ e ip ua now tok cid).1
  | verify_magic tok ip ua now uid sid rt =>
    rcases verify_magic_link_state σ tok ip ua now uid sid rt with hs | ⟨r, heq⟩
    · refine ⟨fun s => s, [], ?_, fun s => Or.inl rfl⟩
      show (apply_op σ (.verify_magic tok ip ua now uid sid rt)).sessions = _
      rw [List.append_nil, List.map_id']
      exact congrArg Sys.sessions hs
    · obtain ⟨c, _, _, _, _, _, _, tail, hsess⟩ := verify_ok_state _ _ _ _ _ _ _ _ _ _ heq
      refine ⟨fun s => s, tail, ?_, fun s => Or.inl rfl⟩
      rw [List.map_id']
      exact hsess
  | refresh rt ip ua now sid nrt =>
    rcases refresh_session_state σ rt ip ua now sid nrt with hs | ⟨r, heq⟩
    · refine ⟨fun s => s, [], ?_, fun s => Or.inl rfl⟩
      show (apply_op σ (.refresh rt ip ua now sid nrt)).sessions = _
      rw [List.append_nil, List.map_id']
      exact congrArg Sys.sessions hs
    · obtain ⟨cur, _, _, _, _, _, _, _, hσ'⟩ := rotate_ok_state _ _ _ _ _ _ _ _ _ heq
      refine ⟨fun s => if s.id = cur.id then { s with revoked_at := some now } else s,
        [{ id := sid, user_id := cur.user_id, refresh_token_hash := hash_token nrt,
           refresh_expires_at := now + refresh_token_ttl_days * 86400,
           rotated_from_session_id := some cur.id, revoked_at := none, created_at := now,
           last_seen_at := some now, ip := ip, user_agent := ua }], ?_, ?_⟩
      · show (refresh_session σ rt ip ua now sid nrt).2.sessions = _
        rw [hσ']
      · intro s
        by_cases hc : s.id = cur.id
        · exact Or.inr ⟨now, by dsimp only; rw [if_pos hc]⟩
        · exact Or.inl (by dsimp only; rw [if_neg hc])
  | logout_op rt now =>
    rcases logout_state σ rt now with hs | ⟨cid0, hs⟩
    · refine ⟨fun s => s, [], ?_, fun s => Or.inl rfl⟩
      show (apply_op σ (.logout_op rt now)).sessions = _
      rw [List.append_nil, List.map_id']
      exact congrArg Sys.sessions hs
    · refine ⟨fun s => if s.id = cid0 then { s with revoked_at := some now } else s,
        [], ?_, ?_⟩
      · show (apply_op σ (.logout_op rt now)).sessions = _
        rw [List.append_nil]
        exact congrArg Sys.sessions hs
      · intro s
        by_cases hc : s.id = cid0
        · exact Or.inr ⟨now, by dsimp only; rw [if_pos hc]⟩
        · exact Or.inl (by dsimp only; rw [if_neg hc])
  | logout_all_op uid now =>
    refine ⟨fun s => if s.user_id = uid then { s with revoked_at := some now } else s,
      [], by rw [List.append_nil]; rfl, ?_⟩
    intro s
    by_cases hc : s.user_id = uid
    · exact Or.inr ⟨now, by dsimp only; rw [if_pos hc]⟩
    · exact Or.inl (by dsimp only; rw [if_neg hc])

theorem apply_op_sessions_le (σ : Sys) (o : Op) :
    σ.sessions.length ≤ (apply_op σ o).sessions.length := by
  obtain ⟨g, tail, he, _⟩ := apply_op_sessions_shape σ o
  rw [he, List.length_append, List.length_map]
  omega

theorem apply_op_revoked_isSome (σ : Sys) (o : Op) (i : Nat) (d : Session)
    (hi : i < σ.sessions.length)
    (hs : ((σ.sessions.getD i d).revoked_at).isSome = true) :
    (((apply_op σ o).sessions.getD i d).revoked_at).isSome = true := by
  obtain ⟨g, tail, he, hg⟩ := apply_op_sessions_shape σ o
  rw [he, getD_append_of_lt _ _ _ _ (by rw [List.length_map]; exact hi),
    getD_map_of_lt g σ.sessions i d d hi]
  rcases hg (σ.sessions.getD i d) with hid | ⟨t, ht⟩
  · rw [hid]; exact hs
  · rw [ht]; rfl

theorem run_sessions_le (σ : Sys) (ops : List Op) :
    σ.sessions.length ≤ (run σ ops).sessions.length := by
  induction ops generalizing σ with
  | nil => exact Nat.le_refl _
  | cons o rest ih =>
    exact Nat.le_trans (apply_op_sessions_le σ o) (ih (apply_op σ o))

theorem run_revoked_isSome (σ : Sys) (ops : List Op) (i : Nat) (d : Session)
    (hi : i < σ.sessions.length)
    (hs : ((σ.sessions.getD i d).revoked_at).isSome = true) :
    (((run σ ops).sessions.getD i d).revoked_at).isSome = true := by
  induction ops generalizing σ with
  | nil => exact hs
  | cons o rest ih =>
    exact ih (apply_op σ o) (Nat.lt_of_lt_of_le hi (apply_op_sessions_le σ o))
      (apply_op_revoked_isSome σ o i d hi hs)

theorem refresh_session_challenges (σ : Sys) (rt : String) (ip ua : Option String)
    (now sid : Nat) (nrt : String) :
    (refresh_session σ rt ip ua now sid nrt).2.challenges = σ.challenges := by
  rcases refresh_session_state σ rt ip ua now sid nrt with hs | ⟨r, heq⟩
  · rw [hs]
  · obtain ⟨cur, _, _, _, _, _, _, _, hσ'⟩ := rotate_ok_state _ _ _ _ _ _ _ _ _ heq
    rw [hσ']

theorem apply_op_challenges_shape (σ : Sys) (o : Op) :
    ∃ (g : LoginChallenge → LoginChallenge) (tail : List LoginChallenge),
      (apply_op σ o).challenges = σ.challenges.map g ++ tail ∧
      (∀ c, (g c).token_hash = c.token_hash ∧ (g c).expires_at = c.expires_at ∧
        (c.used_at ≠ none → (g c).used_at ≠ none)) ∧
      (∀ c' ∈ tail, ∀ x ∈ σ.challenges, x.token_hash ≠ c'.token_hash) := by
  cases o with
  | req_magic e ip ua now tok cid =>
    rcases request_magic_link_challenges σ e ip ua now tok cid with hc | ⟨hc, hany⟩
    · refine ⟨fun c => c, [], ?_, fun c => ⟨rfl, rfl, fun h => h⟩, by simp⟩
      rw [List.append_nil, List.map_id']
      exact hc
    · refine ⟨fun c => c,
        [{ id := cid, email := normalize_email e, token_hash := hash_token tok,
           expires_at := now + MAGIC_LINK_TTL_MINUTES * 60, used_at := none,
           request_ip := ip, request_user_agent := ua, created_at := now }],
        ?_, fun c => ⟨rfl, rfl, fun h => h⟩, ?_⟩
      · rw [List.map_id']
        exact hc
      · intro c' hc' x hx
        simp only [List.mem_singleton] at hc'
        subst hc'
        simp only [List.any_eq_false] at hany
        have h2 := hany x hx
        simp only [Bool.or_eq_true, not_or, beq_iff_eq] at h2
        simpa using h2.1
  | verify_magic tok ip ua now uid sid rt =>
    rcases verify_magic_link_state σ tok ip ua now uid sid rt with hs | ⟨r, heq⟩
    · refine ⟨fun c => c, [], ?_, fun c => ⟨rfl, rfl, fun h => h⟩, by simp⟩
      show (verify_magic_link σ tok ip ua now uid sid rt).2.challenges = _
      rw [List.append_nil, List.map_id']
      exact congrArg Sys.challenges hs
    · obtain ⟨c, _, _, _, _, _, hch, _⟩ := verify_ok_state _ _ _ _ _ _ _ _ _ _ heq
      refine ⟨fun x => if x.id = c.id then { x with used_at := some now } else x, [],
        ?_, ?_, by simp⟩
      · rw [List.append_nil]
        exact hch
      · intro x
        by_cases hc2 : x.id = c.id
        · refine ⟨by dsimp only; rw [if_pos hc2], by dsimp only; rw [if_pos hc2],
            fun _ => by dsimp only; rw [if_pos hc2]; simp⟩
        · refine ⟨by dsimp only; rw [if_neg hc2], by dsimp only; rw [if_neg hc2],
            fun h => by dsimp only; rw [if_neg hc2]; exact h⟩
  | refresh rt ip ua now sid nrt =>
    refine ⟨fun c => c, [], ?_, fun c => ⟨rfl, rfl, fun h => h⟩, by simp⟩
    rw [List.append_nil, List.map_id']
    exact refresh_session_challenges σ rt ip ua now sid nrt
  | logout_op rt now =>
    refine ⟨fun c => c, [], ?_, fun c => ⟨rfl, rfl, fun h => h⟩, by simp⟩
    rw [List.append_nil, List.map_id']
    rcases logout_state σ rt now with hs | ⟨cid0, hs⟩
    · show (logout σ rt now).2.challenges = _
      rw [hs]
    · show (logout σ rt now).2.challenges = _
      rw [hs]
  | logout_all_op uid now =>
    refine ⟨fun c => c, [], ?_, fun c => ⟨rfl, rfl, fun h => h⟩, by simp⟩
    rw [List.append_nil, List.map_id']
    rfl

theorem digest_burned_apply (σ : Sys) (h : String) (T : Nat) (o : Op)
    (hb : digest_burned σ h T) : digest_burned (apply_op σ o) h T := by
  obtain ⟨g, tail, he, hg, htail⟩ := apply_op_challenges_shape σ o
  obtain ⟨⟨c0, hc0m, hc0h⟩, hall⟩ := hb
  constructor
  · refine ⟨g c0, ?_, ?_⟩
    · rw [he]
      exact List.mem_append_left _ (List.mem_map_of_mem g hc0m)
    · rw [(hg c0).1, hc0h]
  · intro c hc hch
    rw [he] at hc
    rcases List.mem_append.mp hc with hmap | htl
    · obtain ⟨x, hx, hgx⟩ := List.mem_map.mp hmap
      have hxh : x.token_hash = h := by rw [← (hg x).1, hgx, hch]
      rcases hall x hx hxh with hu | hexp
      · exact Or.inl (by rw [← hgx]; exact (hg x).2.2 hu)
      · exact Or.inr (by rw [← hgx, (hg x).2.1]; exact hexp)
    · exfalso
      exact htail c htl c0 hc0m (by rw [hc0h, hch])

theorem digest_burned_run (σ : Sys) (h : String) (T : Nat) (ops : List Op)
    (hb : digest_burned σ h T) : digest_burned (run σ ops) h T := by
  induction ops generalizing σ with
  | nil => exact hb
  | cons o rest ih => exact ih (apply_op σ o) (digest_burned_apply σ h T o hb)

theorem verify_fails_of_burned (σ : Sys) (tok : String) (ip ua : Option String)
    (now2 uid sid : Nat) (rt : String) (T : Nat)
    (hb : digest_burned σ (hash_token tok) T) (hT : T ≤ now2) :
    verify_magic_link σ tok ip ua now2 uid sid rt =
      (.err 400 "invalid_or_expired_token", σ) := by
  have hnone : find_unique
      (fun c => c.token_hash == hash_token tok && c.used_at == none
        && decide (now2 < c.expires_at)) σ.challenges = .ok none := by
    apply find_unique_none_of
    intro y hy
    by_cases hh : y.token_hash = hash_token tok
    · rcases hb.2 y hy hh with hu | hexp
      · cases hyu : y.used_at with
        | none => exact absurd hyu hu
        | some v => simp [hyu]
      · have : ¬ (now2 < y.expires_at) := by omega
        simp [this]
    · simp [hh]
  unfold verify_magic_link verify_magic_token_and_create_session
  dsimp only
  rw [hnone]

theorem nodup_subset_length (l l2 : List Nat) (hnd : l.Nodup) (hsub : ∀ x ∈ l, x ∈ l2) :
    l.length ≤ l2.length := by
  have h1 : l.toFinset.card = l.length := List.toFinset_card_of_nodup hnd
  have h2 : l.toFinset ⊆ l2.toFinset := by
    intro a ha
    rw [List.mem_toFinset] at ha ⊢
    exact hsub a ha
  calc l.length = l.toFinset.card := h1.symm
    _ ≤ l2.toFinset.card := Finset.card_le_card h2
    _ ≤ l2.length := List.toFinset_card_le l2

theorem enqueue_nodup (cs : List Nat) (acc : List Nat) (h : acc.Nodup) :
    (cs.foldl (fun a c => if c ∈ a then a else a ++ [c]) acc).Nodup := by
  induction cs generalizing acc with
  | nil => exact h
  | cons c rest ih =>
    rw [List.foldl_cons]
    apply ih
    by_cases hc : c ∈ acc
    · rw [if_pos hc]; exact h
    · rw [if_neg hc]
      simp [List.nodup_append, h, hc]

theorem enqueue_subset_allowed (cs : List Nat) (acc allowed : List Nat)
    (h1 : ∀ x ∈ acc, x ∈ allowed) (h2 : ∀ x ∈ cs, x ∈ allowed) :
    ∀ x ∈ cs.foldl (fun a c => if c ∈ a then a else a ++ [c]) acc, x ∈ allowed := by
  induction cs generalizing acc with
  | nil => exact h1
  | cons c rest ih =>
    rw [List.foldl_cons]
    apply ih
    · intro x hx
      by_cases hc : c ∈ acc
      · rw [if_pos hc] at hx
        exact h1 x hx
      · rw [if_neg hc] at hx
        rcases List.mem_append.mp hx with hx2 | hx2
        · exact h1 x hx2
        · rw [List.mem_singleton.mp hx2]
          exact h2 c (List.mem_cons_self c rest)
    · intro x hx
      exact h2 x (List.mem_cons_of_mem c hx)

theorem enqueue_extends (cs : List Nat) (acc : List Nat) :
    ∀ x ∈ acc, x ∈ cs.foldl (fun a c => if c ∈ a then a else a ++ [c]) acc := by
  induction cs generalizing acc with
  | nil => exact fun x hx => hx
  | cons c rest ih =>
    intro x hx
    rw [List.foldl_cons]
    apply ih
    by_cases hc : c ∈ acc
    · rw [if_pos hc]; exact hx
    · rw [if_neg hc]
      exact List.mem_append_left _ hx

theorem collect_loop_isSome (sessions : List Session) (allowed : List Nat)
    (hall : ∀ s ∈ sessions, s.id ∈ allowed) :
    ∀ fuel ids idx, ids.Nodup → (∀ x ∈ ids, x ∈ allowed) →
      allowed.length ≤ fuel + idx →
      (collect_session_chain_ids_loop sessions fuel ids idx).isSome = true := by
  intro fuel
  induction fuel with
  | zero =>
    intro ids idx hnd hsub hle
    unfold collect_session_chain_ids_loop
    have hlen : ids.length ≤ allowed.length := nodup_subset_length ids allowed hnd hsub
    have hnl : ¬ (idx < ids.length) := by omega
    simp [hnl]
  | succ f ih =>
    intro ids idx hnd hsub hle
    unfold collect_session_chain_ids_loop
    by_cases hlt : idx < ids.length
    · rw [dif_pos hlt]
      dsimp only
      apply ih
      · exact enqueue_nodup _ _ hnd
      · apply enqueue_subset_allowed _ _ _ hsub
        intro x hx
        obtain ⟨s, hsf, hsid⟩ := List.mem_map.mp hx
        rw [← hsid]
        exact hall s (List.mem_of_mem_filter hsf)
      · omega
    · rw [dif_neg hlt]
      rfl

theorem collect_loop_mem (sessions : List Session) :
    ∀ fuel ids idx out x, x ∈ ids →
      collect_session_chain_ids_loop sessions fuel ids idx = some out → x ∈ out := by
  intro fuel
  induction fuel with
  | zero =>
    intro ids idx out x hx h
    unfold collect_session_chain_ids_loop at h
    by_cases hlt : idx < ids.length
    · rw [if_pos hlt] at h
      exact absurd h (by simp)
    · rw [if_neg hlt] at h
      rw [← Option.some.injEq _ _ |>.mp h]
      exact hx
  | succ f ih =>
    intro ids idx out x hx h
    unfold collect_session_chain_ids_loop at h
    by_cases hlt : idx < ids.length
    · rw [dif_pos hlt] at h
      dsimp only at h
      exact ih _ _ _ _ (enqueue_extends _ _ x hx) h
    · rw [dif_neg hlt] at h
      rw [← Option.some.injEq _ _ |>.mp h]
      exact hx

theorem collect_some (sessions : List Session) (root : Nat) :
    ∃ ids, collect_session_chain_ids sessions root = some ids ∧ root ∈ ids := by
  have hall : ∀ s ∈ sessions, s.id ∈ root :: sessions.map (fun s => s.id) := by
    intro s hs
    exact List.mem_cons_of_mem _ (List.mem_map_of_mem _ hs)
  have h := collect_loop_isSome sessions (root :: sessions.map (fun s => s.id)) hall
    (sessions.length + 1) [root] 0
    (List.nodup_singleton root)
    (by intro x hx; rw [List.mem_singleton.mp hx]; exact List.mem_cons_self _ _)
    (by simp)
  obtain ⟨ids, hids⟩ := Option.isSome_iff_exists.mp h
  exact ⟨ids, hids,
    collect_loop_mem sessions _ _ _ _ root (List.mem_singleton.mpr rfl) hids⟩

/-- C1: the claim states that on a reuse detection the chain revocation
is persisted before the 401 refresh_token_reuse is returned, leaving
every descendant of the presented session revoked.  The code contradicts
this: rotate_refresh_token does execute revoke_session_chain before
raising, but the router runs it inside one transaction that the raised
error aborts, so the revocation is rolled back.  Concretely: session 1
is already revoked, session 2 is its live descendant; presenting session
1 token returns 401 refresh_token_reuse, the service-level (ORM) state
had session 2 revoked at the raise, yet the state after the completed
request still has session 2 unrevoked. -/
theorem C1_reuse_chain_revocation_not_persisted :
    refresh_session c1_sys "rtA" none none 10 3 "rtC" =
      (.err 401 "refresh_token_reuse", c1_sys) ∧
    (c1_sys.sessions.getD 1 dummy_session).rotated_from_session_id =
      some ((c1_sys.sessions.getD 0 dummy_session).id) ∧
    ((refresh_session c1_sys "rtA" none none 10 3 "rtC").2.sessions.getD 1
      dummy_session).revoked_at = none ∧
    ((rotate_refresh_token c1_sys "rtA" none none 10 3 "rtC").2.sessions.getD 1
      dummy_session).revoked_at = some 10 := by decide

/-- C2 counterexample: the claim states revoked_at never changes value
once set and that logout-all touches only rows with revoked_at null.
revoke_all_sessions_for_user has no such filter: a session already
revoked at time 5 is overwritten to time 9. -/
theorem C2_counterexample_logout_all_overwrites :
    (c2_sys.sessions.getD 0 dummy_session).revoked_at = some 5 ∧
    ((revoke_all_sessions_for_user c2_sys 7 9).sessions.getD 0
      dummy_session).revoked_at = some 9 ∧
    (some 9 : Option Nat) ≠ some 5 := by decide

/-- C2 amended: once revoked_at is set, no operation of the auth surface
ever returns it to null (first conjunct, over every trace), but its value
can be overwritten with the current time: logout-all sets
revoked_at = now on every session of the user regardless of whether
revoked_at was null (second conjunct, characterising the update). -/
theorem C2_monotone_revocation_amended :
    (∀ (σ : Sys) (ops : List Op) (i : Nat) (d : Session), i < σ.sessions.length →
      ((σ.sessions.getD i d).revoked_at).isSome = true →
      (((run σ ops).sessions.getD i d).revoked_at).isSome = true) ∧
    (∀ (σ : Sys) (uid now i : Nat) (d : Session), i < σ.sessions.length →
      (revoke_all_sessions_for_user σ uid now).sessions.getD i d =
        (if (σ.sessions.getD i d).user_id = uid
          then { σ.sessions.getD i d with revoked_at := some now }
          else σ.sessions.getD i d)) := by
  constructor
  · intro σ ops i d hi hs
    exact run_revoked_isSome σ ops i d hi hs
  · intro σ uid now i d hi
    unfold revoke_all_sessions_for_user
    dsimp only
    rw [getD_map_of_lt _ _ _ _ d hi]

/-- C2 witness: the amended preservation applied to a concrete store and
trace. -/
theorem C2_witness :
    (((run c2_sys [Op.logout_all_op 7 9]).sessions.getD 0
      dummy_session).revoked_at).isSome = true :=
  C2_monotone_revocation_amended.1 c2_sys [Op.logout_all_op 7 9] 0 dummy_session
    (by decide) (by decide)

/-- C10: for every finite session store, cyclic rotated_from_session_id
edges included, the chain-collection traversal returns (enough fuel
always exists because a visited id is never enqueued again), and the
collected set contains the starting id, so chain revocation marks the
presented session itself. -/
theorem C10_chain_collection_terminates :
    (∀ (sessions : List Session) (root : Nat),
      ∃ ids, collect_session_chain_ids sessions root = some ids ∧ root ∈ ids) ∧
    (∀ (σ : Sys) (root now i : Nat) (d : Session), i < σ.sessions.length →
      (σ.sessions.getD i d).id = root →
      ((revoke_session_chain σ root now).sessions.getD i d).revoked_at = some now) := by
  constructor
  · exact collect_some
  · intro σ root now i d hi hid
    obtain ⟨ids, hc, hmem⟩ := collect_some σ.sessions root
    unfold revoke_session_chain
    rw [hc]
    dsimp only
    rw [getD_map_of_lt _ _ _ _ d hi]
    rw [if_pos (by rw [hid]; exact hmem)]

/-- C10 witness: chain revocation on a one-session store marks the
presented session itself. -/
theorem C10_witness :
    ((revoke_session_chain c10_sys 1 9).sessions.getD 0 dummy_session).revoked_at =
      some 9 :=
  C10_chain_collection_terminates.2 c10_sys 1 9 0 dummy_session (by decide) (by decide)

/-- C3: single-use challenge.  First conjunct: a successful verify found
a challenge carrying the presented token digest, unused and unexpired,
and in the committed state that challenge is marked used and the digest
is burned.  Second conjunct: a burned digest stays burned under every
later operation (rows are never deleted, used_at is never cleared, and
the unique constraint on token_hash blocks re-inserting the digest).
Third conjunct: presenting a token whose digest is burned fails with 400
invalid_or_expired_token and leaves the state unchanged, so no second
session is created; hence at most one verify call succeeds per
challenge. -/
theorem C3_single_use_challenge :
    (∀ (σ : Sys) (tok : String) (ip ua : Option String) (now uid sid : Nat) (rt : String)
        (r : AccessToken × String) (σ' : Sys),
      verify_magic_token_and_create_session σ tok ip ua now uid sid rt = (.ok r, σ') →
      ∃ c, c ∈ σ.challenges ∧ c.token_hash = hash_token tok ∧ c.used_at = none ∧
        now < c.expires_at ∧
        (∀ c' ∈ σ'.challenges, c'.id = c.id → c'.used_at = some now) ∧
        digest_burned σ' (hash_token tok) now) ∧
    (∀ (σ : Sys) (h : String) (T : Nat) (ops : List Op),
      digest_burned σ h T → digest_burned (run σ ops) h T) ∧
    (∀ (σ : Sys) (tok : String) (ip ua : Option String) (now2 uid sid : Nat) (rt : String)
        (T : Nat), digest_burned σ (hash_token tok) T → T ≤ now2 →
      verify_magic_link σ tok ip ua now2 uid sid rt =
        (.err 400 "invalid_or_expired_token", σ)) := by
  refine ⟨?_, digest_burned_run, verify_fails_of_burned⟩
  intro σ tok ip ua now uid sid rt r σ' h
  obtain ⟨c, hcm, hh, hu, hexp, huniq, hch, tail, hsess⟩ :=
    verify_ok_state σ tok ip ua now uid sid rt r σ' h
  refine ⟨c, hcm, hh, hu, hexp, ?_, ?_⟩
  · intro c' hc' hid
    rw [hch] at hc'
    obtain ⟨x, hx, hgx⟩ := List.mem_map.mp hc'
    by_cases hxid : x.id = c.id
    · rw [← hgx]
      try dsimp only
      rw [if_pos hxid]
    · exfalso
      apply hxid
      rw [← hid, ← hgx]
      try dsimp only
      rw [if_neg hxid]
  · constructor
    · refine ⟨(fun x => if x.id = c.id then { x with used_at := some now } else x) c, ?_, ?_⟩
      · rw [hch]
        exact List.mem_map_of_mem _ hcm
      · try dsimp only
        rw [if_pos rfl]
        exact hh
    · intro y hy hyh
      rw [hch] at hy
      obtain ⟨x, hx, hgx⟩ := List.mem_map.mp hy
      by_cases hxid : x.id = c.id
      · rw [← hgx]
        try dsimp only
        rw [if_pos hxid]
        exact Or.inl (by simp)
      · have hyx : y = x := by rw [← hgx]; exact if_neg hxid
        subst hyx
        have hyh2 : y.token_hash = hash_token tok := hyh
        by_cases hp : (y.token_hash == hash_token tok && y.used_at == none
            && decide (now < y.expires_at)) = true
        · exact absurd (by rw [huniq y hx hp]) hxid
        · by_cases hu2 : y.used_at = none
          · by_cases hlt : now < y.expires_at
            · exact absurd (by simp [hyh2, hu2, hlt]) hp
            · exact Or.inr (by omega)
          · exact Or.inl hu2

/-- C3 witness: the burned-digest failure applied to a store whose only
challenge carrying the digest of tokZ is already used. -/
theorem C3_witness :
    verify_magic_link c3_sys "tokZ" none none 10 0 0 "x" =
      (.err 400 "invalid_or_expired_token", c3_sys) :=
  C3_single_use_challenge.2.2 c3_sys "tokZ" none none 10 0 0 "x" 5 (by decide) (by decide)

/-- C4: refresh rotation postcondition.  A successful rotation found the
unique live session for the presented digest; the committed state is the
old table with the old session's revoked_at set to now, plus exactly one
new session whose rotated_from_session_id is the old id, whose user_id is
copied, whose refresh_token_hash is the digest of the freshly generated
token (absent from the old table), and whose ip, user_agent and
last_seen_at come from the request; the endpoint commits this same state
with a 200. -/
theorem C4_rotation_postcondition :
    ∀ (σ : Sys) (token : String) (ip ua : Option String) (now sid : Nat) (nrt : String)
      (r : AccessToken × String) (σ' : Sys),
      rotate_refresh_token σ token ip ua now sid nrt = (.ok r, σ') →
      ∃ cur, cur ∈ σ.sessions ∧ cur.refresh_token_hash = hash_token token ∧
        cur.revoked_at = none ∧ now < cur.refresh_expires_at ∧
        σ'.sessions = σ.sessions.map
            (fun s => if s.id = cur.id then { s with revoked_at := some now } else s) ++
          [{ id := sid, user_id := cur.user_id, refresh_token_hash := hash_token nrt,
             refresh_expires_at := now + refresh_token_ttl_days * 86400,
             rotated_from_session_id := some cur.id, revoked_at := none, created_at := now,
             last_seen_at := some now, ip := ip, user_agent := ua }] ∧
        σ'.sessions.length = σ.sessions.length + 1 ∧
        (∀ s ∈ σ.sessions, s.refresh_token_hash ≠ hash_token nrt) ∧
        refresh_session σ token ip ua now sid nrt = (.ok "ok", σ') := by
  intro σ token ip ua now sid nrt r σ' h
  obtain ⟨cur, hcm, hh, hrev, hexp, huniq, hany, hr, hσ'⟩ :=
    rotate_ok_state σ token ip ua now sid nrt r σ' h
  have hsess : σ'.sessions = σ.sessions.map
      (fun s => if s.id = cur.id then { s with revoked_at := some now } else s) ++
    [{ id := sid, user_id := cur.user_id, refresh_token_hash := hash_token nrt,
       refresh_expires_at := now + refresh_token_ttl_days * 86400,
       rotated_from_session_id := some cur.id, revoked_at := none, created_at := now,
       last_seen_at := some now, ip := ip, user_agent := ua }] := by rw [hσ']
  refine ⟨cur, hcm, hh, hrev, hexp, hsess, ?_, ?_, ?_⟩
  · rw [hsess, List.length_append, List.length_map]
    rfl
  · intro s hs
    simp only [List.any_eq_false] at hany
    have h2 := hany s hs
    simp only [Bool.or_eq_true, not_or, beq_iff_eq] at h2
    exact h2.1
  · unfold refresh_session
    rw [h]

/-- C4 witness: a concrete successful rotation of a live session. -/
theorem C4_witness :
    ∃ cur, cur ∈ c4_sys.sessions ∧ cur.refresh_token_hash = hash_token "rt" ∧
      cur.revoked_at = none ∧ 20 < cur.refresh_expires_at ∧
      (rotate_refresh_token c4_sys "rt" none none 20 9 "rtN").2.sessions =
        c4_sys.sessions.map
            (fun s => if s.id = cur.id then { s with revoked_at := some 20 } else s) ++
          [{ id := 9, user_id := cur.user_id, refresh_token_hash := hash_token "rtN",
             refresh_expires_at := 20 + refresh_token_ttl_days * 86400,
             rotated_from_session_id := some cur.id, revoked_at := none, created_at := 20,
             last_seen_at := some 20, ip := none, user_agent := none }] ∧
      (rotate_refresh_token c4_sys "rt" none none 20 9 "rtN").2.sessions.length =
        c4_sys.sessions.length + 1 ∧
      (∀ s ∈ c4_sys.sessions, s.refresh_token_hash ≠ hash_token "rtN") ∧
      refresh_session c4_sys "rt" none none 20 9 "rtN" =
        (.ok "ok", (rotate_refresh_token c4_sys "rt" none none 20 9 "rtN").2) :=
  C4_rotation_postcondition c4_sys "rt" none none 20 9 "rtN"
    (create_access_token 7 20, "rtN")
    (rotate_refresh_token c4_sys "rt" none none 20 9 "rtN").2 (by rfl)

/-- C5 counterexample: the claim says a refresh fails with
session_hijacking whenever stored and request ip are both non-null and
differ.  A session whose stored ip is the empty string (non-null at the
schema level) is compared by Python truthiness, so the check is skipped
and the refresh succeeds. -/
theorem C5_counterexample_empty_ip :
    (c5_sys.sessions.getD 0 dummy_session).ip ≠ none ∧
    (c5_sys.sessions.getD 0 dummy_session).ip ≠ some "9.9.9.9" ∧
    (refresh_session c5_sys "rt5" (some "9.9.9.9") none 10 2 "rt6").1 = .ok "ok" := by
  decide

/-- C5 amended: for a refresh that found a live, unexpired session, the
rotation fails with session_hijacking if and only if the stored ip and
the request ip are both non-null AND non-empty and differ, or likewise
for user_agent (Python truthiness: null and the empty string both skip
the comparison). -/
theorem C5_hijack_condition_amended :
    ∀ (σ : Sys) (token : String) (ip ua : Option String) (now sid : Nat) (nrt : String)
      (cur : Session),
      find_unique (fun s => s.refresh_token_hash == hash_token token) σ.sessions =
        .ok (some cur) →
      cur.revoked_at = none →
      now < cur.refresh_expires_at →
      (((rotate_refresh_token σ token ip ua now sid nrt).1 = .error .session_hijacking) ↔
        ((truthy cur.ip = true ∧ truthy ip = true ∧ cur.ip ≠ ip) ∨
         (truthy cur.user_agent = true ∧ truthy ua = true ∧ cur.user_agent ≠ ua))) := by
  intro σ token ip ua now sid nrt cur hf hrev hexp
  unfold rotate_refresh_token
  dsimp only
  rw [hf]
  dsimp only
  rw [if_neg (by rw [hrev]; simp)]
  rw [if_neg (by omega)]
  by_cases h3 : (truthy cur.ip && truthy ip && decide (cur.ip ≠ ip)) = true
  · rw [if_pos h3]
    simp only [Bool.and_eq_true, decide_eq_true_eq] at h3
    exact iff_of_true rfl (Or.inl ⟨h3.1.1, h3.1.2, h3.2⟩)
  · rw [if_neg h3]
    by_cases h4 : (truthy cur.user_agent && truthy ua && decide (cur.user_agent ≠ ua)) = true
    · rw [if_pos h4]
      simp only [Bool.and_eq_true, decide_eq_true_eq] at h4
      exact iff_of_true rfl (Or.inr ⟨h4.1.1, h4.1.2, h4.2⟩)
    · rw [if_neg h4]
      have hR : ¬ ((truthy cur.ip = true ∧ truthy ip = true ∧ cur.ip ≠ ip) ∨
          (truthy cur.user_agent = true ∧ truthy ua = true ∧ cur.user_agent ≠ ua)) := by
        intro hor
        rcases hor with ⟨t1, t2, hne⟩ | ⟨t1, t2, hne⟩
        · exact h3 (by simp only [Bool.and_eq_true, decide_eq_true_eq]; exact ⟨⟨t1, t2⟩, hne⟩)
        · exact h4 (by simp only [Bool.and_eq_true, decide_eq_true_eq]; exact ⟨⟨t1, t2⟩, hne⟩)
      try dsimp only
      by_cases h5 : (σ.sessions.any
          (fun s => s.refresh_token_hash == hash_token nrt || s.id == sid)) = true
      · rw [if_pos h5]
        exact iff_of_false (by simp) hR
      · rw [if_neg h5]
        exact iff_of_false (by simp) hR

/-- C5 witness: a genuine ip mismatch (both sides non-null and
non-empty) is detected as hijacking. -/
theorem C5_witness :
    (((rotate_refresh_token c5w_sys "rtW" (some "2.2.2.2") none 10 4 "rtX").1 =
        .error .session_hijacking) ↔
      ((truthy (c5w_sys.sessions.getD 0 dummy_session).ip = true ∧
          truthy (some "2.2.2.2") = true ∧
          (c5w_sys.sessions.getD 0 dummy_session).ip ≠ some "2.2.2.2") ∨
       (truthy (c5w_sys.sessions.getD 0 dummy_session).user_agent = true ∧
          truthy none = true ∧
          (c5w_sys.sessions.getD 0 dummy_session).user_agent ≠ none))) :=
  C5_hijack_condition_amended c5w_sys "rtW" (some "2.2.2.2") none 10 4 "rtX"
    (c5w_sys.sessions.getD 0 dummy_session) (by rfl) (by decide) (by decide)

/-- C6 counterexample: the claim says a magic-link request during a
key-value store outage is admitted and proceeds to create a challenge.
check_rate_limit has no handler and no timeout: with the store down the
pipeline error propagates, the request fails with a 500 and no challenge
is inserted. -/
theorem C6_counterexample_kv_outage :
    (request_magic_link c6_sys "a@b.c" none none 0 "tok" 1).1 = .err 500 "infra" ∧
    (request_magic_link c6_sys "a@b.c" none none 0 "tok" 1).2.challenges = [] := by
  decide

/-- C6 amended: during a key-value store outage the rate-limit error
propagates (fail closed): every magic-link request returns an infra
error and leaves the state unchanged, creating no challenge. -/
theorem C6_fail_closed_amended :
    ∀ (σ : Sys) (e : String) (ip ua : Option String) (now : Nat) (tok : String) (cid : Nat),
      σ.redis.down = true →
      request_magic_link σ e ip ua now tok cid = (.err 500 "infra", σ) := by
  intro σ e ip ua now tok cid hd
  unfold request_magic_link check_rate_limit
  rw [hd]
  rfl

/-- C6 witness: the fail-closed behaviour on the concrete outage state. -/
theorem C6_witness :
    request_magic_link c6_sys "x@y.z" none none 3 "tk" 2 = (.err 500 "infra", c6_sys) :=
  C6_fail_closed_amended c6_sys "x@y.z" none none 3 "tk" 2 (by decide)

/-- C7 counterexample: the claim says a counter expires exactly 600
seconds after its first increment and later increments do not move the
expiry.  The pipeline runs EXPIRE on every call: after a first admission
at t = 0 the email counter expires at 600, and a second admission at
t = 100 moves the expiry to 700. -/
theorem C7_counterexample_expiry_reset :
    (redis_lookup c7_state1 (rl_key_email "a@b.c")).map (fun k => k.expiry) =
      some (some 600) ∧
    (redis_lookup c7_state2 (rl_key_email "a@b.c")).map (fun k => k.expiry) =
      some (some 700) ∧
    (700 : Nat) ≠ 0 + RATE_LIMIT_WINDOW_SECONDS := by decide

/-- C7 amended: each of the two counters expires 600 seconds after its
most recent increment: every admission call leaves both the email and ip
keys with expiry now + 600. -/
theorem C7_window_expiry_amended :
    ∀ (r : RedisState) (email : String) (ip : Option String) (now : Nat) (a : Bool)
      (r2 : RedisState), check_rate_limit r email ip now = .ok (a, r2) →
      (redis_lookup r2 (rl_key_email email)).map (fun k => k.expiry) =
        some (some (now + RATE_LIMIT_WINDOW_SECONDS)) ∧
      (redis_lookup r2 (rl_key_ip (ip_bucket ip))).map (fun k => k.expiry) =
        some (some (now + RATE_LIMIT_WINDOW_SECONDS)) := by
  intro r email ip now a r2 h
  have hr2 : r2 = (rl_counts r email ip now).2.2 := by
    unfold check_rate_limit at h
    by_cases hd : r.down = true
    · rw [if_pos hd] at h
      exact absurd h (by simp)
    · rw [if_neg hd] at h
      dsimp only at h
      split at h <;>
        · simp only [Except.ok.injEq, Prod.mk.injEq] at h
          exact h.2.symm
  subst hr2
  unfold rl_counts
  dsimp only
  constructor
  · rw [redis_lookup_expire_other _ _ _ _ _ (rl_keys_ne email (ip_bucket ip)),
      redis_lookup_incr_other _ _ _ _ (rl_keys_ne email (ip_bucket ip)),
      incr_expire_self]
    rfl
  · rw [incr_expire_self]
    rfl

/-- C7 witness: the amended expiry fact on the first admission call. -/
theorem C7_witness :
    (redis_lookup (rl_counts {} "a@b.c" none 0).2.2 (rl_key_email "a@b.c")).map
        (fun k => k.expiry) = some (some (0 + RATE_LIMIT_WINDOW_SECONDS)) ∧
    (redis_lookup (rl_counts {} "a@b.c" none 0).2.2 (rl_key_ip (ip_bucket none))).map
        (fun k => k.expiry) = some (some (0 + RATE_LIMIT_WINDOW_SECONDS)) :=
  C7_window_expiry_amended {} "a@b.c" none 0 true (rl_counts {} "a@b.c" none 0).2.2 (by rfl)

/-- C8: the admission decision denies if and only if, after
incrementing, the per-email or the per-ip counter exceeds
RATE_LIMIT_MAX = 5 (first conjunct); six consecutive requests for the
same email and ip inside one window insert challenges on the first five
calls only, while all six return the constant 200 success body (second
conjunct, on the concrete trace). -/
theorem C8_rate_limit_threshold :
    (∀ (r : RedisState) (email : String) (ip : Option String) (now : Nat) (a : Bool)
        (r2 : RedisState), check_rate_limit r email ip now = .ok (a, r2) →
      (a = false ↔ (rl_counts r email ip now).1 > RATE_LIMIT_MAX ∨
        (rl_counts r email ip now).2.1 > RATE_LIMIT_MAX)) ∧
    ((run {} (c8_ops.take 1)).challenges.length = 1 ∧
     (run {} (c8_ops.take 2)).challenges.length = 2 ∧
     (run {} (c8_ops.take 3)).challenges.length = 3 ∧
     (run {} (c8_ops.take 4)).challenges.length = 4 ∧
     (run {} (c8_ops.take 5)).challenges.length = 5 ∧
     (run {} c8_ops).challenges.length = 5 ∧
     op_response (run {} (c8_ops.take 0))
       (.req_magic "a@b.c" (some "1.1.1.1") none 0 "t0" 10) = .ok "ok" ∧
     op_response (run {} (c8_ops.take 1))
       (.req_magic "a@b.c" (some "1.1.1.1") none 1 "t1" 11) = .ok "ok" ∧
     op_response (run {} (c8_ops.take 2))
       (.req_magic "a@b.c" (some "1.1.1.1") none 2 "t2" 12) = .ok "ok" ∧
     op_response (run {} (c8_ops.take 3))
       (.req_magic "a@b.c" (some "1.1.1.1") none 3 "t3" 13) = .ok "ok" ∧
     op_response (run {} (c8_ops.take 4))
       (.req_magic "a@b.c" (some "1.1.1.1") none 4 "t4" 14) = .ok "ok" ∧
     op_response (run {} (c8_ops.take 5))
       (.req_magic "a@b.c" (some "1.1.1.1") none 5 "t5" 15) = .ok "ok") := by
  constructor
  · intro r email ip now a r2 h
    unfold check_rate_limit at h
    by_cases hd : r.down = true
    · rw [if_pos hd] at h
      exact absurd h (by simp)
    · rw [if_neg hd] at h
      dsimp only at h
      split at h
      · rename_i hcond
        simp only [Except.ok.injEq, Prod.mk.injEq] at h
        rw [← h.1]
        exact iff_of_true rfl hcond
      · rename_i hcond
        simp only [Except.ok.injEq, Prod.mk.injEq] at h
        rw [← h.1]
        exact iff_of_false (by simp) hcond
  · decide

/-- C8 witness: the threshold characterisation on the first admission
call against an empty store. -/
theorem C8_witness :
    ((true : Bool) = false ↔ (rl_counts {} "a@b.c" none 0).1 > RATE_LIMIT_MAX ∨
      (rl_counts {} "a@b.c" none 0).2.1 > RATE_LIMIT_MAX) :=
  C8_rate_limit_threshold.1 {} "a@b.c" none 0 true (rl_counts {} "a@b.c" none 0).2.2 (by rfl)

/-- C9: enumeration resistance.  The magic-link request never reads the
user store: its response and its effect on challenges and counters are
identical for any two user tables (first conjunct, covering
known-existing versus unknown email).  Whenever the counter store is up
and the generated digest and id are fresh, the response is the constant
success body whether the request was admitted or denied (second
conjunct). -/
theorem C9_enumeration_resistance :
    (∀ (σ : Sys) (U1 U2 : List User) (e : String) (ip ua : Option String) (now : Nat)
        (tok : String) (cid : Nat),
      (request_magic_link { σ with users := U1 } e ip ua now tok cid).1 =
        (request_magic_link { σ with users := U2 } e ip ua now tok cid).1 ∧
      (request_magic_link { σ with users := U1 } e ip ua now tok cid).2.challenges =
        (request_magic_link { σ with users := U2 } e ip ua now tok cid).2.challenges ∧
      (request_magic_link { σ with users := U1 } e ip ua now tok cid).2.redis =
        (request_magic_link { σ with users := U2 } e ip ua now tok cid).2.redis) ∧
    (∀ (σ : Sys) (e : String) (ip ua : Option String) (now : Nat) (tok : String) (cid : Nat),
      σ.redis.down = false →
      (σ.challenges.any (fun c => c.token_hash == hash_token tok || c.id == cid)) = false →
      (request_magic_link σ e ip ua now tok cid).1 = .ok "ok") := by
  constructor
  · intro σ U1 U2 e ip ua now tok cid
    unfold request_magic_link
    dsimp only
    cases h : check_rate_limit σ.redis (normalize_email e) ip now with
    | error e2 => exact ⟨rfl, rfl, rfl⟩
    | ok p =>
      cases p with
      | mk b r =>
        cases b
        · exact ⟨rfl, rfl, rfl⟩
        · by_cases hany : (σ.challenges.any
              (fun c => c.token_hash == hash_token tok || c.id == cid)) = true
          · simp [hany]
          · simp [hany]
  · intro σ e ip ua now tok cid hd hfresh
    unfold request_magic_link
    dsimp only
    cases hc : check_rate_limit σ.redis (normalize_email e) ip now with
    | error e2 =>
      exfalso
      unfold check_rate_limit at hc
      rw [if_neg (by rw [hd]; simp)] at hc
      dsimp only at hc
      split at hc <;> exact absurd hc (by simp)
    | ok p =>
      cases p with
      | mk b r =>
        cases b
        · rfl
        · dsimp only
          rw [if_neg (by rw [hfresh]; simp)]

/-- C9 witness: the constant success body on a fresh request. -/
theorem C9_witness :
    (request_magic_link {} "a@b.c" none none 0 "tokW" 1).1 = .ok "ok" :=
  C9_enumeration_resistance.2 {} "a@b.c" none none 0 "tokW" 1 (by decide) (by decide)

end Keyra
